import Mathlib

/-!
Verification development for the `create-any-tools` project scaffolding CLI.

The definitions below are a shallow embedding of the TypeScript source
(`src/unnamed/part_000`, with `src/packages/create-tools/src/index.ts` an
earlier iteration of the same tool).  JavaScript values that can appear in
the substitution scope are modelled by `JSValue`; the global-regex
replacement of `replaceTemplate` is modelled by a left-to-right scanner
over `List Char`; the filesystem, network and interactive-prompt effects
are modelled by explicit inputs and outputs.
-/

/-- A JavaScript value as it can appear in the `Locals` substitution scope
(answers collected from `prompts`, or defaults): a string, a number, a
boolean, or null. -/
inductive JSValue where
  | str (s : String)
  | num (n : Int)
  | bool (b : Bool)
  | null
deriving DecidableEq, Repr

/-- JavaScript truthiness of a `JSValue`: the empty string, 0, false and
null are falsy, everything else is truthy.  This is the test applied by
`scope?.[key] || block` in `replaceTemplate`. -/
def JSValue.truthy : JSValue → Bool
  | .str s => !(s == "")
  | .num n => !(n == 0)
  | .bool b => b
  | .null => false

/-- String coercion of a `JSValue`, as applied by `String.prototype.replace`
to the value returned from the replacer function. -/
def JSValue.render : JSValue → String
  | .str s => s
  | .num n => toString n
  | .bool b => if b then "true" else "false"
  | .null => "null"

/-- The `Locals` substitution scope: a mapping from variable name to
answered value, in insertion order (JavaScript object property order). -/
def Locals : Type := List (String × JSValue)

/-- Property lookup on a JavaScript object modelled as an association
list: the first binding of the key wins, a missing key gives `none`
(JavaScript `undefined`). -/
def lookupKey {α : Type} : List (String × α) → String → Option α
  | [], _ => none
  | (k, v) :: rest, key => if k == key then some v else lookupKey rest key

/-- The character class of the literal space in the regex
`(\\)?{{ *(\w+) *}}` — `' '` only, not general whitespace. -/
def isSpaceChar (c : Char) : Bool := c == ' '

/-- The regex character class `\w` (no `u` flag): ASCII letters, ASCII
digits and underscore. -/
def isWordChar (c : Char) : Bool := c.isAlpha || c.isDigit || c == '_'

/-- Expect the same character `ch` twice at the head of the list, returning
the remainder; used for the literal `{{` and `}}` of the placeholder
regex. -/
def expectTwo (ch : Char) : List Char → Option (List Char)
  | c1 :: c2 :: rest => if c1 == ch && c2 == ch then some rest else none
  | _ => none

/-- Try to match `{{ *(\w+) *}}` at the head of `l`.  On success returns
`(key, block, rest)`: the captured key, the exact characters consumed by
the match (the `block` argument of the replacer, without any escape
backslash), and the characters after the match.  The regex's quantifiers
range over disjoint character classes, so greedy maximal munch is exact. -/
def matchToken (l : List Char) : Option (String × List Char × List Char) :=
  match expectTwo '\x7b' l with
  | none => none
  | some rest =>
    let sp1 := rest.takeWhile isSpaceChar
    let r1 := rest.dropWhile isSpaceChar
    let w := r1.takeWhile isWordChar
    let r2 := r1.dropWhile isWordChar
    let sp2 := r2.takeWhile isSpaceChar
    let r3 := r2.dropWhile isSpaceChar
    if w.isEmpty then none
    else
      match expectTwo '\x7d' r3 with
      | none => none
      | some r4 =>
        some (String.mk w, '\x7b' :: '\x7b' :: (sp1 ++ w ++ sp2 ++ ['\x7d', '\x7d']), r4)

/-- The replacer body of `replaceTemplate` for an unescaped match:
`scope?.[key] || block` — the value's string rendering when the key is
bound to a truthy value, otherwise the literal matched block. -/
def scopeSubst (scope : Locals) (key : String) (block : List Char) : List Char :=
  match lookupKey scope key with
  | some v => if v.truthy then v.render.data else block
  | none => block

/-- One left-to-right pass of `content.replace(/(\\)?{{ *(\w+) *}}/g, ...)`,
fuelled so that the recursion is structural.  At each position: a backslash
immediately followed by a token emits the token literally (the replacer
returns `block.substring(1)`); an unescaped token is substituted through
`scopeSubst`; any other character is copied and scanning resumes at the
next position.  With `fuel ≥ l.length` the fuel never runs out. -/
def replaceFuel (scope : Locals) : Nat → List Char → List Char
  | _, [] => []
  | 0, l => l
  | fuel + 1, c :: rest =>
    if c == '\x5c' then
      match matchToken rest with
      | some (_, b, r) => b ++ replaceFuel scope fuel r
      | none => c :: replaceFuel scope fuel rest
    else
      match matchToken (c :: rest) with
      | some (k, b, r) => scopeSubst scope k b ++ replaceFuel scope fuel r
      | none => c :: replaceFuel scope fuel rest

/-- The scanner at its intended fuel (the length of the input). -/
def replaceList (scope : Locals) (l : List Char) : List Char :=
  replaceFuel scope l.length l

/-- `replaceTemplate(content, scope)` from the source: global replacement
of `(\\)?{{ *(\w+) *}}` over the content string. -/
def replaceTemplate (content : String) (scope : Locals) : String :=
  String.mk (replaceList scope content.data)

/-- The exact character sequence of one placeholder token
`{{sp1 w sp2}}` (braces literal, `sp1`/`sp2` runs of spaces, `w` the key). -/
def tokenChars (sp1 w sp2 : List Char) : List Char :=
  '\x7b' :: '\x7b' :: (sp1 ++ w ++ sp2 ++ ['\x7d', '\x7d'])

theorem expectTwo_eq_some {ch : Char} {l r : List Char}
    (h : expectTwo ch l = some r) : l = ch :: ch :: r := by
  cases l with
  | nil => simp [expectTwo] at h
  | cons c1 t =>
    cases t with
    | nil => simp [expectTwo] at h
    | cons c2 rest =>
      simp only [expectTwo] at h
      by_cases hc : (c1 == ch && c2 == ch) = true
      · obtain ⟨h1, h2⟩ := by simpa [Bool.and_eq_true, beq_iff_eq] using hc
        subst h1; subst h2
        simp only [hc, if_true, Option.some.injEq] at h
        rw [h]
      · simp [hc] at h

theorem expectTwo_self {ch : Char} (r : List Char) :
    expectTwo ch (ch :: ch :: r) = some r := by
  simp [expectTwo]

theorem takeWhile_append_cons {p : Char → Bool} {a : List Char} {c : Char} {t : List Char}
    (ha : ∀ x ∈ a, p x = true) (hc : p c = false) :
    (a ++ c :: t).takeWhile p = a ∧ (a ++ c :: t).dropWhile p = c :: t := by
  induction a with
  | nil => simp [List.takeWhile_cons, List.dropWhile_cons, hc]
  | cons x xs ih =>
    have hx := ha x (by simp)
    have hxs : ∀ y ∈ xs, p y = true := fun y hy => ha y (by simp [hy])
    obtain ⟨h1, h2⟩ := ih hxs
    simp [List.takeWhile_cons, List.dropWhile_cons, hx, h1, h2]

theorem word_not_space {c : Char} (h : isWordChar c = true) : isSpaceChar c = false := by
  cases hc : isSpaceChar c
  · rfl
  · have hceq : c = ' ' := by simpa [isSpaceChar] using hc
    rw [hceq] at h
    exact absurd h (by decide)

theorem space_not_word {c : Char} (h : isSpaceChar c = true) : isWordChar c = false := by
  have hceq : c = ' ' := by simpa [isSpaceChar] using h
  rw [hceq]
  decide

/-- Construction: `matchToken` recognises a well-formed token at the head of
the input and consumes exactly it. -/
theorem matchToken_build {sp1 w sp2 suf : List Char}
    (hsp1 : ∀ c ∈ sp1, isSpaceChar c = true)
    (hw : ∀ c ∈ w, isWordChar c = true)
    (hsp2 : ∀ c ∈ sp2, isSpaceChar c = true)
    (hwne : w ≠ []) :
    matchToken (tokenChars sp1 w sp2 ++ suf) =
      some (String.mk w, tokenChars sp1 w sp2, suf) := by
  obtain ⟨wc, wt, rfl⟩ : ∃ c t, w = c :: t := by
    cases w with
    | nil => exact absurd rfl hwne
    | cons c t => exact ⟨c, t, rfl⟩
  have hwc : isWordChar wc = true := hw wc (by simp)
  have heq1 : tokenChars sp1 (wc :: wt) sp2 ++ suf =
      '\x7b' :: '\x7b' :: (sp1 ++ wc :: (wt ++ (sp2 ++ ('\x7d' :: '\x7d' :: suf)))) := by
    simp [tokenChars]
  rw [heq1]
  have h1 := takeWhile_append_cons (p := isSpaceChar)
    (t := wt ++ (sp2 ++ ('\x7d' :: '\x7d' :: suf))) hsp1 (word_not_space hwc)
  have h2 : (wc :: (wt ++ (sp2 ++ ('\x7d' :: '\x7d' :: suf)))).takeWhile isWordChar
        = wc :: wt ∧
      (wc :: (wt ++ (sp2 ++ ('\x7d' :: '\x7d' :: suf)))).dropWhile isWordChar
        = sp2 ++ ('\x7d' :: '\x7d' :: suf) := by
    cases sp2 with
    | nil =>
      have := takeWhile_append_cons (p := isWordChar) (a := wc :: wt)
        (c := '\x7d') (t := '\x7d' :: suf) (fun x hx => hw x hx) (by decide)
      simpa using this
    | cons sc st =>
      have hsc := hsp2 sc (by simp)
      have := takeWhile_append_cons (p := isWordChar) (a := wc :: wt)
        (c := sc) (t := st ++ ('\x7d' :: '\x7d' :: suf)) (fun x hx => hw x hx)
        (space_not_word hsc)
      simpa using this
  have h3 := takeWhile_append_cons (p := isSpaceChar) (a := sp2)
    (c := '\x7d') (t := '\x7d' :: suf) hsp2 (by decide)
  simp only [matchToken, expectTwo_self]
  rw [h1.1, h1.2, h2.1, h2.2, h3.1, h3.2]
  simp [expectTwo_self, tokenChars]

/-- Deconstruction: a successful `matchToken` consumed an initial segment of
the input that starts with the two opening braces. -/
theorem matchToken_spec {l : List Char} {k : String} {b r : List Char}
    (h : matchToken l = some (k, b, r)) :
    l = b ++ r ∧ ∃ t, b = '\x7b' :: '\x7b' :: t := by
  unfold matchToken at h
  cases he : expectTwo '\x7b' l with
  | none => rw [he] at h; exact absurd h (by simp)
  | some rest =>
    rw [he] at h
    simp only at h
    split at h
    · exact absurd h (by simp)
    · split at h
      · exact absurd h (by simp)
      · rename_i hemp r4 he2
        obtain ⟨hk, hb, hr⟩ : k = String.mk ((rest.dropWhile isSpaceChar).takeWhile isWordChar) ∧
            b = '\x7b' :: '\x7b' ::
              (rest.takeWhile isSpaceChar ++ (rest.dropWhile isSpaceChar).takeWhile isWordChar ++
                (((rest.dropWhile isSpaceChar).dropWhile isWordChar).takeWhile isSpaceChar) ++
                ['\x7d', '\x7d']) ∧
            r = r4 := by
          have := h.symm
          simpa [Prod.ext_iff] using this
        refine ⟨?_, ⟨_, hb⟩⟩
        have hl := expectTwo_eq_some he
        have h34 := expectTwo_eq_some he2
        have e1 : rest.takeWhile isSpaceChar ++ rest.dropWhile isSpaceChar = rest :=
          List.takeWhile_append_dropWhile _ _
        have e2 : (rest.dropWhile isSpaceChar).takeWhile isWordChar ++
            (rest.dropWhile isSpaceChar).dropWhile isWordChar = rest.dropWhile isSpaceChar :=
          List.takeWhile_append_dropWhile _ _
        have e3 : ((rest.dropWhile isSpaceChar).dropWhile isWordChar).takeWhile isSpaceChar ++
            ((rest.dropWhile isSpaceChar).dropWhile isWordChar).dropWhile isSpaceChar =
            (rest.dropWhile isSpaceChar).dropWhile isWordChar :=
          List.takeWhile_append_dropWhile _ _
        subst hb hr hl
        rw [← e1]
        conv_lhs => rw [← e2]
        conv_lhs => rw [← e3]
        rw [h34]
        simp

/-- A successful match consumes at least the two opening braces, so the
remainder is strictly shorter: the scanner's effective fuel bound. -/
theorem matchToken_length {l : List Char} {k : String} {b r : List Char}
    (h : matchToken l = some (k, b, r)) : r.length + 2 ≤ l.length := by
  obtain ⟨hl, t, hb⟩ := matchToken_spec h
  subst hb
  rw [hl]
  simp [List.length_append]


theorem replaceFuel_nil (scope : Locals) (f : Nat) : replaceFuel scope f [] = [] := by
  cases f <;> rfl

/-- Fuel irrelevance: any fuel at least the input length gives the same
result, so `replaceList` is the unique total behaviour of the scanner. -/
theorem replaceFuel_ge (scope : Locals) :
    ∀ (f g : Nat) (l : List Char), l.length ≤ f → l.length ≤ g →
      replaceFuel scope f l = replaceFuel scope g l := by
  intro f
  induction f with
  | zero =>
    intro g l hf _
    have : l = [] := by
      cases l with
      | nil => rfl
      | cons c t => simp at hf
    subst this
    rw [replaceFuel_nil, replaceFuel_nil]
  | succ f ih =>
    intro g l hf hg
    cases l with
    | nil => rw [replaceFuel_nil, replaceFuel_nil]
    | cons c rest =>
      cases g with
      | zero => simp at hg
      | succ g =>
        have hf' : rest.length ≤ f := by simpa using hf
        have hg' : rest.length ≤ g := by simpa using hg
        show replaceFuel scope (f + 1) (c :: rest) = replaceFuel scope (g + 1) (c :: rest)
        by_cases hc : (c == '\x5c') = true
        · cases hm : matchToken rest with
          | none =>
            have ihr := ih g rest hf' hg'
            simp [replaceFuel, hc, hm, ihr]
          | some x =>
            obtain ⟨k, b, r⟩ := x
            have hlen := matchToken_length hm
            have ihr := ih g r (by omega) (by omega)
            simp [replaceFuel, hc, hm, ihr]
        · have hcf : (c == '\x5c') = false := by simpa using hc
          cases hm : matchToken (c :: rest) with
          | none =>
            have ihr := ih g rest hf' hg'
            simp [replaceFuel, hcf, hm, ihr]
          | some x =>
            obtain ⟨k, b, r⟩ := x
            have hlen := matchToken_length hm
            simp only [List.length_cons] at hlen
            have ihr := ih g r (by omega) (by omega)
            simp [replaceFuel, hcf, hm, ihr]

theorem replaceList_nil (scope : Locals) : replaceList scope [] = [] := rfl

/-- Scanner step: a character that opens no match and is not a backslash is
copied through unchanged. -/
theorem replaceList_cons_nomatch {scope : Locals} {c : Char} {rest : List Char}
    (hc : (c == '\x5c') = false) (hm : matchToken (c :: rest) = none) :
    replaceList scope (c :: rest) = c :: replaceList scope rest := by
  unfold replaceList
  simp [replaceFuel, hc, hm]

/-- Scanner step: a backslash that does not precede a token is copied
through unchanged (the regex finds no match at this position). -/
theorem replaceList_bs_nomatch {scope : Locals} {rest : List Char}
    (hm : matchToken rest = none) :
    replaceList scope ('\x5c' :: rest) = '\x5c' :: replaceList scope rest := by
  unfold replaceList
  simp [replaceFuel, hm]

/-- Scanner step: a backslash immediately preceding a token emits the token
literally with the backslash stripped (`block.substring(skip.length)`). -/
theorem replaceList_escape {scope : Locals} {rest : List Char} {k : String} {b r : List Char}
    (hm : matchToken rest = some (k, b, r)) :
    replaceList scope ('\x5c' :: rest) = b ++ replaceList scope r := by
  unfold replaceList
  have hlen := matchToken_length hm
  have hfg := replaceFuel_ge scope rest.length r.length r (by omega) (le_refl _)
  simp [replaceFuel, hm, hfg]

/-- Scanner step: an unescaped token is replaced through `scopeSubst`. -/
theorem replaceList_subst {scope : Locals} {c : Char} {rest : List Char} {k : String}
    {b r : List Char} (hm : matchToken (c :: rest) = some (k, b, r)) :
    replaceList scope (c :: rest) = scopeSubst scope k b ++ replaceList scope r := by
  have hc : (c == '\x5c') = false := by
    obtain ⟨hl, t, hb⟩ := matchToken_spec hm
    have : c = '\x7b' := by
      rw [hb] at hl
      exact (List.cons.injEq _ _ _ _).mp hl |>.1
    rw [this]
    decide
  unfold replaceList
  have hlen := matchToken_length hm
  simp only [List.length_cons] at hlen
  have hfg := replaceFuel_ge scope rest.length r.length r (by omega) (le_refl _)
  simp [replaceFuel, hc, hm, hfg]

/-- A character that is neither a backslash nor an opening brace: the
scanner copies it through and no match can start at it. -/
def plainChar (c : Char) : Bool := !(c == '\x5c') && !(c == '\x7b')

theorem matchToken_cons_none {c : Char} (rest : List Char)
    (hc : (c == '\x7b') = false) : matchToken (c :: rest) = none := by
  unfold matchToken
  cases rest with
  | nil => rfl
  | cons c2 t =>
    have : expectTwo '\x7b' (c :: c2 :: t) = none := by
      simp [expectTwo, hc]
    rw [this]

/-- The scanner passes over a run of plain characters unchanged. -/
theorem replaceList_append_plain {scope : Locals} {pre l : List Char}
    (h : ∀ c ∈ pre, plainChar c = true) :
    replaceList scope (pre ++ l) = pre ++ replaceList scope l := by
  induction pre with
  | nil => simp
  | cons c t ih =>
    have hc := h c (by simp)
    have hbs : (c == '\x5c') = false := by
      simp only [plainChar, Bool.and_eq_true, Bool.not_eq_true'] at hc
      exact hc.1
    have hbr : (c == '\x7b') = false := by
      simp only [plainChar, Bool.and_eq_true, Bool.not_eq_true'] at hc
      exact hc.2
    have ht : ∀ x ∈ t, plainChar x = true := fun x hx => h x (by simp [hx])
    rw [List.cons_append, replaceList_cons_nomatch hbs (matchToken_cons_none _ hbr), ih ht]
    rfl

/-- One unescaped placeholder in context: a prefix of plain characters,
the token, then any suffix.  The token is rewritten through `scopeSubst`
and scanning continues on the suffix. -/
theorem replaceList_token {scope : Locals} {pre sp1 w sp2 suf : List Char}
    (hpre : ∀ c ∈ pre, plainChar c = true)
    (hsp1 : ∀ c ∈ sp1, isSpaceChar c = true)
    (hw : ∀ c ∈ w, isWordChar c = true)
    (hsp2 : ∀ c ∈ sp2, isSpaceChar c = true)
    (hwne : w ≠ []) :
    replaceList scope (pre ++ (tokenChars sp1 w sp2 ++ suf)) =
      pre ++ (scopeSubst scope (String.mk w) (tokenChars sp1 w sp2) ++ replaceList scope suf) := by
  rw [replaceList_append_plain hpre]
  have hm := @matchToken_build sp1 w sp2 suf hsp1 hw hsp2 hwne
  have : tokenChars sp1 w sp2 ++ suf =
      '\x7b' :: ('\x7b' :: (sp1 ++ w ++ sp2 ++ ['\x7d', '\x7d']) ++ suf) := by
    simp [tokenChars]
  rw [this] at hm ⊢
  rw [replaceList_subst hm]

/-- One escaped placeholder in context: the backslash is stripped, the token
is emitted literally whatever the scope, and scanning continues on the
suffix. -/
theorem replaceList_escaped_token {scope : Locals} {pre sp1 w sp2 suf : List Char}
    (hpre : ∀ c ∈ pre, plainChar c = true)
    (hsp1 : ∀ c ∈ sp1, isSpaceChar c = true)
    (hw : ∀ c ∈ w, isWordChar c = true)
    (hsp2 : ∀ c ∈ sp2, isSpaceChar c = true)
    (hwne : w ≠ []) :
    replaceList scope (pre ++ ('\x5c' :: (tokenChars sp1 w sp2 ++ suf))) =
      pre ++ (tokenChars sp1 w sp2 ++ replaceList scope suf) := by
  rw [replaceList_append_plain hpre]
  have hm := @matchToken_build sp1 w sp2 suf hsp1 hw hsp2 hwne
  rw [replaceList_escape hm]

/-- The fixed `fileMapping` alias table from the source: reserved basenames
mapped to their real on-disk names, all other basenames unchanged. -/
def fileMapping (basename : String) : String :=
  if basename == "gitignore" then ".gitignore"
  else if basename == "_gitignore" then ".gitignore"
  else if basename == "_.gitignore" then ".gitignore"
  else if basename == "_package.json" then "package.json"
  else if basename == "_.eslintrc" then ".eslintrc"
  else if basename == "_.eslintignore" then ".eslintignore"
  else if basename == "_.npmignore" then ".npmignore"
  else basename

/-- A relative path as a list of segments (the result of splitting a
glob-enumerated path at the separator). -/
abbrev RelPath : Type := List String

/-- `path.parse(file)` restricted to what `processFiles` uses: the
directory portion (all but the last segment) and the base name (the last
segment). -/
def pathParse (file : RelPath) : RelPath × String :=
  (file.dropLast, file.getLastD "")

/-- Destination path formation of `processFiles` for one enumerated entry:
`path.join(targetDir, dirname, replaceTemplate(fileName, locals))` where
`fileName` is the alias-mapped base name.  Only the base name goes through
`replaceTemplate`; `dirname` is joined verbatim. -/
def destPath (targetDir : String) (locals : Locals) (file : RelPath) : List String :=
  let parsed := pathParse file
  let fileName := fileMapping parsed.2
  targetDir :: (parsed.1 ++ [replaceTemplate fileName locals])

/-- `path.basename`: the final segment of a path after stripping trailing
separators. -/
def basename (p : String) : String :=
  let noTrail := (p.data.reverse.dropWhile (fun c => c == '/')).reverse
  String.mk ((noTrail.reverse.takeWhile (fun c => !(c == '/'))).reverse)

/-- One entry of the per-template question manifest, with the fields
`askForVariable` reads: `name`, `type`, `message`, `initial`.  A missing
field is `none` (JavaScript `undefined`). -/
structure Question where
  name : Option String
  qtype : Option String
  message : Option String
  initial : Option JSValue
deriving DecidableEq, Repr

/-- The value exported by the template's manifest module after the
`typeof questions === 'function'` check: either the mapping directly, or a
factory invoked with no arguments. -/
inductive QuestionsValue where
  | mapping (qs : List (String × Question))
  | factory (f : Unit → List (String × Question))

/-- Resolve a `QuestionsValue` to the plain mapping (the
`typeof questions === 'function'` branch of `askForVariable`). -/
def resolveQuestions : QuestionsValue → List (String × Question)
  | .mapping qs => qs
  | .factory f => f ()

/-- JavaScript truthiness of an optional `initial` field:
`questions.name?.initial` is truthy iff the field is present and truthy. -/
def initialTruthy : Option JSValue → Bool
  | some v => v.truthy
  | none => false

/-- Mutate a question's `initial` field (the assignment
`questions.name.initial = path.basename(targetDir)`). -/
def setInitial (q : Question) (v : String) : Question :=
  { q with initial := some (.str v) }

/-- The name-default step of `askForVariable`:
`if (!questions.name?.initial) questions.name.initial = path.basename(targetDir)`.
When no `name` question exists the assignment dereferences `undefined` and
throws a `TypeError` (returned here as `none`, to be caught by the
surrounding `try`). -/
def setNameInitial (targetBase : String) (qs : List (String × Question)) :
    Option (List (String × Question)) :=
  match lookupKey qs "name" with
  | none => none
  | some q =>
    if initialTruthy q.initial then some qs
    else some (qs.map (fun kq =>
      if kq.1 == "name" then (kq.1, setInitial kq.2 targetBase) else kq))

/-- JavaScript `a || b` on an optional string field: the default wins when
the field is absent or the empty string. -/
def orElseStr (o : Option String) (d : String) : String :=
  match o with
  | some s => if s == "" then d else s
  | none => d

/-- The prompt object built for one manifest entry:
`{...question, name: question.name || key, type: question.type || 'text',
message: question.message || '', initial: question.initial}`. -/
structure PromptSpec where
  name : String
  ptype : String
  message : String
  initial : Option JSValue
deriving DecidableEq, Repr

def buildPrompt (key : String) (q : Question) : PromptSpec :=
  { name := orElseStr q.name key
    ptype := orElseStr q.qtype "text"
    message := orElseStr q.message ""
    initial := q.initial }

/-- Outcome of the dynamic `import` of the template's question manifest in
`askForVariable`: module not found, some other load error, or a loaded
value. -/
inductive ManifestLoad where
  | moduleNotFound
  | loadError (msg : String)
  | loaded (qv : QuestionsValue)

/-- The prompt list `askForVariable` hands to `prompts`, plus whether the
warning branch ran.  `moduleNotFound` silently yields no questions;
any other load error (including the `TypeError` thrown by the name-default
step) logs a warning and yields no questions; a loaded manifest yields one
prompt per entry in insertion order. -/
structure AskResult where
  prompts : List PromptSpec
  warned : Bool
deriving DecidableEq, Repr

def askForVariablePrompts (targetDir : String) (load : ManifestLoad) : AskResult :=
  match load with
  | .moduleNotFound => ⟨[], false⟩
  | .loadError _ => ⟨[], true⟩
  | .loaded qv =>
    let qs := resolveQuestions qv
    match setNameInitial (basename targetDir) qs with
    | none => ⟨[], true⟩
    | some qs2 => ⟨qs2.map (fun kq => buildPrompt kq.1 kq.2), false⟩

/-- A filesystem node: regular file content as raw bytes, a directory with
named entries, or a symbolic link. -/
inductive FsTree where
  | file (content : List Nat)
  | dir (entries : List (String × FsTree))
  | symlink (target : String)

/-- `emptyDir(dir)` from the source: a non-existent directory (`none`) is
left alone; otherwise every entry except the one named `.git` is removed
(`rmSync` recursive+force), the `.git` entry is kept untouched. -/
def emptyDir (d : Option (List (String × FsTree))) : Option (List (String × FsTree)) :=
  match d with
  | none => none
  | some entries => some (entries.filter (fun e => e.1 == ".git"))

/-- The three-way overwrite disposition offered when the target directory
exists and is non-empty. -/
inductive OverwriteChoice where
  | yes
  | no
  | ignore
deriving DecidableEq, Repr

/-- Lines 318–322 of `init`: on `yes` the target is emptied; otherwise a
missing target is created (`mkdirSync recursive`), an existing one is left
as is (the `ignore` disposition performs no pre-clean). -/
def resolveRootDir (overwrite : Option OverwriteChoice)
    (root : Option (List (String × FsTree))) : Option (List (String × FsTree)) :=
  if overwrite == some OverwriteChoice.yes then emptyDir root
  else
    match root with
    | none => some []
    | some es => some es

/-- A template identifier: `{ version, name }`. -/
structure PackageInfo where
  version : String
  name : String
deriving DecidableEq, Repr

/-- The part of the registry metadata response `downloadBoilerplate`
consumes: `result.data.dist.tarball`. -/
structure PackageDetail where
  tarball : String
deriving DecidableEq, Repr

/-- Errors of the fetch pipeline.  `transport` is whatever the underlying
`request` primitive raises (network error, bad status, malformed body).
`packageDetailFetchFailed` is the distinct wrapped error class the spec
describes; it exists here only so that the claim about it can be stated —
nothing in the source constructs it. -/
inductive FetchError where
  | transport (msg : String)
  | packageDetailFetchFailed (msg : String)
deriving DecidableEq, Repr

/-- `getPackageDetail`: one GET of `{registry}/{name}/{version}`, the
response data returned as is; a failed request propagates unchanged — there
is no retry, no fallback and no wrapping. -/
def getPackageDetail (registry : String) (pkg : PackageInfo)
    (net : String → Except FetchError PackageDetail) : Except FetchError PackageDetail :=
  net (registry ++ "/" ++ pkg.name ++ "/" ++ pkg.version)

/-- The fixed scratch directory used for extraction (relative to the
module's own directory in the source). -/
def scratchDir : String := "create-any-tools-boilerplate"

/-- `downloadBoilerplate`: look the package detail up, then (download and
extraction of `result.dist.tarball` abstracted away) return the `package`
subdirectory of the scratch directory.  A metadata failure short-circuits
the whole function. -/
def downloadBoilerplate (registry : String) (pkg : PackageInfo)
    (net : String → Except FetchError PackageDetail) : Except FetchError String :=
  match getPackageDetail registry pkg net with
  | .error e => .error e
  | .ok _ => .ok (scratchDir ++ "/package")

/-- The text-or-binary write step of `processFiles` for a regular file:
`istextorbinary.isText(from, content)` decides (its verdict is the
`isTextFile` argument); a text file is decoded, substituted and re-encoded,
a binary file is written back byte for byte. -/
def instantiateFileContent (isTextFile : Bool) (content : List Nat) (locals : Locals) :
    List Nat :=
  if isTextFile then
    let text := (String.fromUTF8? (ByteArray.mk ((content.map (fun b =>
      UInt8.ofNat b)).toArray))).getD ""
    ((replaceTemplate text locals).toUTF8.toList.map (fun b => b.toNat))
  else content

/-- Outcome of the interactive prompt chain at the start of `init`
(project name, overwrite disposition, framework selection): either the
user cancelled (the `onCancel` throw), or answers were produced.  The
overwrite answer is `none` when the question was skipped because the
target was absent or empty. -/
inductive InitPromptResult where
  | cancelled
  | answered (overwrite : Option OverwriteChoice) (framework : PackageInfo)

/-- Outcome of the per-template variable prompts inside `askForVariable`:
cancelled (its own `onCancel` calls `process.exit(1)` after printing
`exit`), or a `Locals` mapping of answers. -/
inductive VarPromptResult where
  | varCancelled
  | varAnswered (locals : List (String × JSValue))

/-- The external events one run of `init` consumes, in program order. -/
structure InitInput where
  search : Except FetchError (List PackageInfo)
  promptResult : InitPromptResult
  fetch : Except FetchError PackageDetail
  varPrompt : VarPromptResult

/-- Observable outcome of one run: the process exit code, whether a
human-readable message was printed on the termination path, and whether
the usage block was printed. -/
structure InitOutcome where
  exitCode : Nat
  printedMsg : Bool
  printedUsage : Bool
deriving DecidableEq, Repr

/-- Control flow of `init().catch()`.  A failed template search or detail
fetch rejects `init()`; the final `.catch()` is argument-less, so it
installs no handler and the rejection stays unhandled — the runtime prints
the error and terminates the process with exit code 1.  Prompt
cancellation — and the `overwrite === 'no'` throw of `overwriteChecker` —
is caught inside `init`, which prints the cancellation message and returns
normally: exit code 0.  Cancellation of the variable prompts calls
`process.exit(1)` after printing `exit`.  Successful completion prints the
usage block and the process ends with exit code 0. -/
def initRun (inp : InitInput) : InitOutcome :=
  match inp.search with
  | .error _ => ⟨1, true, false⟩
  | .ok _ =>
    match inp.promptResult with
    | .cancelled => ⟨0, true, false⟩
    | .answered ow _ =>
      if ow == some OverwriteChoice.no then ⟨0, true, false⟩
      else
        match inp.fetch with
        | .error _ => ⟨1, true, false⟩
        | .ok _ =>
          match inp.varPrompt with
          | .varCancelled => ⟨1, true, false⟩
          | .varAnswered _ => ⟨0, false, true⟩

/-- Claim C1, counterexample: the claim says a token whose key is present
in `Locals` is replaced by the corresponding value, but a key bound to the
empty string (present, falsy) is not replaced — the literal token is kept,
and in particular the output differs from the bound value. -/
theorem claim_C1_counterexample :
    lookupKey [("name", JSValue.str "")] "name" = some (JSValue.str "") ∧
    replaceTemplate "\x7b\x7b name \x7d\x7d" [("name", JSValue.str "")] =
      "\x7b\x7b name \x7d\x7d" ∧
    replaceTemplate "\x7b\x7b name \x7d\x7d" [("name", JSValue.str "")] ≠ "" := by
  decide

/-- Claim C1 (amended): in any text of the form `pre ++ token ++ suf` with
`pre` free of backslashes and opening braces, the placeholder token is
replaced by the value when its key is bound to a truthy value in `Locals`,
and left as the unchanged literal token when the key is absent; scanning
continues on the suffix in both cases. -/
theorem claim_C1_substitution (scope : Locals) (pre sp1 w sp2 suf : List Char)
    (hpre : ∀ c ∈ pre, plainChar c = true)
    (hsp1 : ∀ c ∈ sp1, isSpaceChar c = true)
    (hw : ∀ c ∈ w, isWordChar c = true)
    (hsp2 : ∀ c ∈ sp2, isSpaceChar c = true)
    (hwne : w ≠ []) :
    (∀ v : JSValue, lookupKey scope (String.mk w) = some v → v.truthy = true →
      replaceTemplate (String.mk (pre ++ (tokenChars sp1 w sp2 ++ suf))) scope =
        String.mk (pre ++ (v.render.data ++ replaceList scope suf))) ∧
    (lookupKey scope (String.mk w) = none →
      replaceTemplate (String.mk (pre ++ (tokenChars sp1 w sp2 ++ suf))) scope =
        String.mk (pre ++ (tokenChars sp1 w sp2 ++ replaceList scope suf))) := by
  constructor
  · intro v hl ht
    show String.mk (replaceList scope (pre ++ (tokenChars sp1 w sp2 ++ suf))) = _
    rw [replaceList_token hpre hsp1 hw hsp2 hwne]
    simp [scopeSubst, hl, ht]
  · intro hl
    show String.mk (replaceList scope (pre ++ (tokenChars sp1 w sp2 ++ suf))) = _
    rw [replaceList_token hpre hsp1 hw hsp2 hwne]
    simp [scopeSubst, hl]

/-- Claim C1, witness: the amended theorem applied to the two concrete
examples of the claim — `Hello {{ name }}!` with `name` bound to `World`
instantiates to `Hello World!`, and `{{ missing }}` with no binding stays
unchanged. -/
theorem claim_C1_witness :
    replaceTemplate "Hello \x7b\x7b name \x7d\x7d!" [("name", JSValue.str "World")] =
      "Hello World!" ∧
    replaceTemplate "\x7b\x7b missing \x7d\x7d" [("name", JSValue.str "World")] =
      "\x7b\x7b missing \x7d\x7d" := by
  constructor
  · have h := (claim_C1_substitution [("name", JSValue.str "World")] "Hello ".data
      [' '] "name".data [' '] "!".data (by decide) (by decide) (by decide) (by decide)
      (by decide)).1 (JSValue.str "World") (by decide) (by decide)
    rw [(by decide : ("Hello \x7b\x7b name \x7d\x7d!" : String) =
      String.mk ("Hello ".data ++ (tokenChars [' '] "name".data [' '] ++ "!".data)))]
    rw [h]
    decide
  · have h := (claim_C1_substitution [("name", JSValue.str "World")] []
      [' '] "missing".data [' '] [] (by decide) (by decide) (by decide) (by decide)
      (by decide)).2 (by decide)
    rw [(by decide : ("\x7b\x7b missing \x7d\x7d" : String) =
      String.mk ([] ++ (tokenChars [' '] "missing".data [' '] ++ [])))]
    rw [h]
    decide

/-- Claim C5: a placeholder token immediately preceded by a backslash is
emitted literally with the backslash stripped and is never substituted,
for every scope — in particular whether or not the key is bound. -/
theorem claim_C5_escape (scope : Locals) (pre sp1 w sp2 suf : List Char)
    (hpre : ∀ c ∈ pre, plainChar c = true)
    (hsp1 : ∀ c ∈ sp1, isSpaceChar c = true)
    (hw : ∀ c ∈ w, isWordChar c = true)
    (hsp2 : ∀ c ∈ sp2, isSpaceChar c = true)
    (hwne : w ≠ []) :
    replaceTemplate (String.mk (pre ++ ('\x5c' :: (tokenChars sp1 w sp2 ++ suf)))) scope =
      String.mk (pre ++ (tokenChars sp1 w sp2 ++ replaceList scope suf)) := by
  show String.mk (replaceList scope (pre ++ ('\x5c' :: (tokenChars sp1 w sp2 ++ suf)))) = _
  rw [replaceList_escaped_token hpre hsp1 hw hsp2 hwne]

/-- Claim C5, witness: `\{{ name }}` instantiates to the literal
`{{ name }}` although `name` is bound in the scope. -/
theorem claim_C5_witness :
    replaceTemplate "\x5c\x7b\x7b name \x7d\x7d" [("name", JSValue.str "World")] =
      "\x7b\x7b name \x7d\x7d" := by
  have h := claim_C5_escape [("name", JSValue.str "World")] [] [' '] "name".data [' '] []
    (by decide) (by decide) (by decide) (by decide) (by decide)
  rw [(by decide : ("\x5c\x7b\x7b name \x7d\x7d" : String) =
    String.mk ([] ++ ('\x5c' :: (tokenChars [' '] "name".data [' '] ++ []))))]
  rw [h]
  decide

/-- Claim C10: a key that is present in the scope but bound to a falsy
value (empty string, 0, false or null) leaves the placeholder token as the
unchanged literal, because `scope?.[key] || block` falls back to the
block. -/
theorem claim_C10_falsy (scope : Locals) (pre sp1 w sp2 suf : List Char) (v : JSValue)
    (hpre : ∀ c ∈ pre, plainChar c = true)
    (hsp1 : ∀ c ∈ sp1, isSpaceChar c = true)
    (hw : ∀ c ∈ w, isWordChar c = true)
    (hsp2 : ∀ c ∈ sp2, isSpaceChar c = true)
    (hwne : w ≠ [])
    (hl : lookupKey scope (String.mk w) = some v)
    (ht : v.truthy = false) :
    replaceTemplate (String.mk (pre ++ (tokenChars sp1 w sp2 ++ suf))) scope =
      String.mk (pre ++ (tokenChars sp1 w sp2 ++ replaceList scope suf)) := by
  show String.mk (replaceList scope (pre ++ (tokenChars sp1 w sp2 ++ suf))) = _
  rw [replaceList_token hpre hsp1 hw hsp2 hwne]
  simp [scopeSubst, hl, ht]

/-- Claim C10, witness: the theorem applied to all four falsy value kinds
named by the claim — empty string, 0, false and null. -/
theorem claim_C10_witness :
    replaceTemplate "\x7b\x7b a \x7d\x7d" [("a", JSValue.str "")] = "\x7b\x7b a \x7d\x7d" ∧
    replaceTemplate "\x7b\x7b b \x7d\x7d" [("b", JSValue.num 0)] = "\x7b\x7b b \x7d\x7d" ∧
    replaceTemplate "\x7b\x7b c \x7d\x7d" [("c", JSValue.bool false)] = "\x7b\x7b c \x7d\x7d" ∧
    replaceTemplate "\x7b\x7b d \x7d\x7d" [("d", JSValue.null)] = "\x7b\x7b d \x7d\x7d" := by
  refine ⟨?_, ?_, ?_, ?_⟩
  · have h := claim_C10_falsy [("a", JSValue.str "")] [] [' '] "a".data [' '] []
      (JSValue.str "") (by decide) (by decide) (by decide) (by decide) (by decide)
      (by decide) (by decide)
    rw [(by decide : ("\x7b\x7b a \x7d\x7d" : String) =
      String.mk ([] ++ (tokenChars [' '] "a".data [' '] ++ [])))]
    rw [h]
    decide
  · have h := claim_C10_falsy [("b", JSValue.num 0)] [] [' '] "b".data [' '] []
      (JSValue.num 0) (by decide) (by decide) (by decide) (by decide) (by decide)
      (by decide) (by decide)
    rw [(by decide : ("\x7b\x7b b \x7d\x7d" : String) =
      String.mk ([] ++ (tokenChars [' '] "b".data [' '] ++ [])))]
    rw [h]
    decide
  · have h := claim_C10_falsy [("c", JSValue.bool false)] [] [' '] "c".data [' '] []
      (JSValue.bool false) (by decide) (by decide) (by decide) (by decide) (by decide)
      (by decide) (by decide)
    rw [(by decide : ("\x7b\x7b c \x7d\x7d" : String) =
      String.mk ([] ++ (tokenChars [' '] "c".data [' '] ++ [])))]
    rw [h]
    decide
  · have h := claim_C10_falsy [("d", JSValue.null)] [] [' '] "d".data [' '] []
      JSValue.null (by decide) (by decide) (by decide) (by decide) (by decide)
      (by decide) (by decide)
    rw [(by decide : ("\x7b\x7b d \x7d\x7d" : String) =
      String.mk ([] ++ (tokenChars [' '] "d".data [' '] ++ [])))]
    rw [h]
    decide

/-- Claim C2, counterexample: a directory segment containing a placeholder
is joined into the destination path verbatim — it is not substituted,
although `name` is bound; only the base filename goes through
`replaceTemplate`. -/
theorem claim_C2_counterexample :
    destPath "target" [("name", JSValue.str "World")]
        ["\x7b\x7b name \x7d\x7d", "file.txt"] =
      ["target", "\x7b\x7b name \x7d\x7d", "file.txt"] ∧
    destPath "target" [("name", JSValue.str "World")]
        ["\x7b\x7b name \x7d\x7d", "file.txt"] ≠
      ["target", "World", "file.txt"] := by
  decide

/-- Claim C2 (amended): only the base filename component of an enumerated
entry is alias-mapped and run through placeholder substitution; every
directory segment is joined into the destination path verbatim,
unsubstituted. -/
theorem claim_C2_amended (targetDir : String) (locals : Locals)
    (dirs : List String) (base : String) :
    destPath targetDir locals (dirs ++ [base]) =
      targetDir :: (dirs ++ [replaceTemplate (fileMapping base) locals]) := by
  unfold destPath pathParse
  simp

/-- Claim C2, witness: the amended theorem at a concrete entry — the
substituted basename lands under the literal placeholder directory. -/
theorem claim_C2_witness :
    destPath "app" [("name", JSValue.str "World")]
        ["\x7b\x7b name \x7d\x7d", "\x7b\x7b name \x7d\x7d.txt"] =
      ["app", "\x7b\x7b name \x7d\x7d", "World.txt"] := by
  have h := claim_C2_amended "app" [("name", JSValue.str "World")]
    ["\x7b\x7b name \x7d\x7d"] "\x7b\x7b name \x7d\x7d.txt"
  rw [show (["\x7b\x7b name \x7d\x7d", "\x7b\x7b name \x7d\x7d.txt"] : List String) =
    ["\x7b\x7b name \x7d\x7d"] ++ ["\x7b\x7b name \x7d\x7d.txt"] from rfl]
  rw [h]
  decide

/-- Claim C3: for a loaded manifest whose `name` question declares no
initial value, `askForVariable` injects the target directory's base name
as that question's default, and the prompt list then covers every manifest
question in insertion order (one prompt per entry, so equal length). -/
theorem claim_C3_name_default (targetDir : String) (qv : QuestionsValue) (q : Question)
    (hq : lookupKey (resolveQuestions qv) "name" = some q)
    (hinit : q.initial = none) :
    askForVariablePrompts targetDir (ManifestLoad.loaded qv) =
      ⟨(resolveQuestions qv).map (fun kq =>
          if kq.1 == "name" then buildPrompt kq.1 (setInitial kq.2 (basename targetDir))
          else buildPrompt kq.1 kq.2),
        false⟩ ∧
    (askForVariablePrompts targetDir (ManifestLoad.loaded qv)).prompts.length =
      (resolveQuestions qv).length := by
  have hfalse : initialTruthy q.initial = false := by rw [hinit]; rfl
  have hset : setNameInitial (basename targetDir) (resolveQuestions qv) =
      some ((resolveQuestions qv).map (fun kq =>
        if kq.1 == "name" then (kq.1, setInitial kq.2 (basename targetDir)) else kq)) := by
    unfold setNameInitial
    rw [hq]
    simp [hfalse]
  have hmain : askForVariablePrompts targetDir (ManifestLoad.loaded qv) =
      ⟨(resolveQuestions qv).map (fun kq =>
          if kq.1 == "name" then buildPrompt kq.1 (setInitial kq.2 (basename targetDir))
          else buildPrompt kq.1 kq.2),
        false⟩ := by
    simp only [askForVariablePrompts]
    rw [hset]
    simp only [List.map_map]
    congr 1
    refine congrFun (congrArg List.map (funext fun kq => ?_)) (resolveQuestions qv)
    by_cases hk : (kq.1 == "name") = true
    · simp [Function.comp, hk]
    · have hk' : (kq.1 == "name") = false := by simpa using hk
      simp [Function.comp, hk']
  refine ⟨hmain, ?_⟩
  rw [hmain]
  simp

/-- Claim C3, witness: a two-question manifest whose `name` question has no
initial value; the prompt list pre-fills the target's base name and keeps
both questions. -/
theorem claim_C3_witness :
    askForVariablePrompts "apps/demo"
        (ManifestLoad.loaded (QuestionsValue.mapping
          [("name", ⟨none, none, some "Project name:", none⟩),
           ("desc", ⟨none, some "text", none, some (JSValue.str "d")⟩)])) =
      ⟨[⟨"name", "text", "Project name:", some (JSValue.str "demo")⟩,
        ⟨"desc", "text", "", some (JSValue.str "d")⟩], false⟩ := by
  have h := (claim_C3_name_default "apps/demo"
    (QuestionsValue.mapping
      [("name", ⟨none, none, some "Project name:", none⟩),
       ("desc", ⟨none, some "text", none, some (JSValue.str "d")⟩)])
    ⟨none, none, some "Project name:", none⟩ (by decide) rfl).1
  rw [h]
  decide

/-- Claim C6: loading the question manifest never aborts the run — a
module-not-found load yields no questions and no warning, any other load
error yields no questions with a warning, and in both cases the pipeline
continues with the empty mapping. -/
theorem claim_C6_manifest_load (targetDir : String) (msg : String) :
    askForVariablePrompts targetDir ManifestLoad.moduleNotFound =
      ⟨[], false⟩ ∧
    askForVariablePrompts targetDir (ManifestLoad.loadError msg) =
      ⟨[], true⟩ :=
  ⟨rfl, rfl⟩

/-- Claim C6, witness: the theorem at a concrete target directory and a
concrete load-error message. -/
theorem claim_C6_witness :
    askForVariablePrompts "my-app" ManifestLoad.moduleNotFound = ⟨[], false⟩ ∧
    askForVariablePrompts "my-app" (ManifestLoad.loadError "SyntaxError") = ⟨[], true⟩ :=
  claim_C6_manifest_load "my-app" "SyntaxError"

/-- Claim C7: a file the text-or-binary inspection classifies as binary is
written byte for byte identical to the source, with zero substitution
applied, whatever its bytes (in particular when they contain the substring
of an opening token); only a text-classified file goes through
`replaceTemplate`. -/
theorem claim_C7_binary_safety :
    (∀ (content : List Nat) (locals : Locals),
      instantiateFileContent false content locals = content) ∧
    (∀ (content : List Nat) (locals : Locals),
      instantiateFileContent true content locals =
        ((replaceTemplate ((String.fromUTF8? (ByteArray.mk ((content.map (fun b =>
          UInt8.ofNat b)).toArray))).getD "") locals).toUTF8.toList.map
            (fun b => b.toNat))) :=
  ⟨fun _ _ => rfl, fun _ _ => rfl⟩

/-- Claim C7, witness: the identity at bytes that do contain `{{ name }}`,
with `name` bound in the scope. -/
theorem claim_C7_witness :
    instantiateFileContent false
        ("\x7b\x7b name \x7d\x7d".toUTF8.toList.map (fun b => b.toNat))
        [("name", JSValue.str "World")] =
      ("\x7b\x7b name \x7d\x7d".toUTF8.toList.map (fun b => b.toNat)) :=
  claim_C7_binary_safety.1 _ _

/-- Claim C8, counterexample: a failed metadata lookup propagates as the
raw transport error, unchanged — not as the distinct
"package detail fetch failed" error class the claim describes (which the
inspected code never constructs). -/
theorem claim_C8_counterexample :
    downloadBoilerplate "https://registry.npmjs.org" ⟨"1.0.0", "@any-tools/demo"⟩
        (fun _ => Except.error (FetchError.transport "ECONNREFUSED")) =
      Except.error (FetchError.transport "ECONNREFUSED") ∧
    FetchError.transport "ECONNREFUSED" ≠
      FetchError.packageDetailFetchFailed "ECONNREFUSED" := by
  exact ⟨rfl, by decide⟩

/-- Claim C8 (amended): a failure of the metadata lookup is fatal to
`downloadBoilerplate` — the lookup is attempted exactly once, nothing
falls back — and the underlying error propagates unchanged, with no
distinct wrapping. -/
theorem claim_C8_amended (registry : String) (pkg : PackageInfo) (e : FetchError)
    (net : String → Except FetchError PackageDetail)
    (hnet : net (registry ++ "/" ++ pkg.name ++ "/" ++ pkg.version) = Except.error e) :
    getPackageDetail registry pkg net = Except.error e ∧
    downloadBoilerplate registry pkg net = Except.error e := by
  have hg : getPackageDetail registry pkg net = Except.error e := by
    unfold getPackageDetail
    exact hnet
  refine ⟨hg, ?_⟩
  unfold downloadBoilerplate
  rw [hg]

/-- Claim C8, witness: the amended theorem at a concrete package and a
concrete transport failure. -/
theorem claim_C8_witness :
    getPackageDetail "https://registry.example" ⟨"2.1.0", "@any-tools/site"⟩
        (fun _ => Except.error (FetchError.transport "socket hang up")) =
      Except.error (FetchError.transport "socket hang up") ∧
    downloadBoilerplate "https://registry.example" ⟨"2.1.0", "@any-tools/site"⟩
        (fun _ => Except.error (FetchError.transport "socket hang up")) =
      Except.error (FetchError.transport "socket hang up") :=
  claim_C8_amended "https://registry.example" ⟨"2.1.0", "@any-tools/site"⟩
    (FetchError.transport "socket hang up")
    (fun _ => Except.error (FetchError.transport "socket hang up")) rfl

/-- Claim C9: under the remove-and-continue disposition, every entry of the
target directory except the one named exactly `.git` is removed, the
`.git` entry is kept with its contents untouched, and cleaning a
non-existent directory changes nothing. -/
theorem claim_C9_emptyDir (es : List (String × FsTree)) (n : String) (t : FsTree) :
    resolveRootDir (some OverwriteChoice.yes) (some es) =
      some (es.filter (fun e => e.1 == ".git")) ∧
    ((n, t) ∈ es.filter (fun e => e.1 == ".git") ↔ (n, t) ∈ es ∧ n = ".git") ∧
    resolveRootDir (some OverwriteChoice.yes) none = none := by
  refine ⟨rfl, ?_, rfl⟩
  simp [List.mem_filter]

/-- Claim C9, witness: a directory holding `.git`, a source tree and a
file; only the `.git` entry survives, unchanged. -/
theorem claim_C9_witness :
    resolveRootDir (some OverwriteChoice.yes)
        (some [(".git", FsTree.dir [("HEAD", FsTree.file [114])]),
               ("src", FsTree.dir []),
               ("README.md", FsTree.file [104, 105])]) =
      some [(".git", FsTree.dir [("HEAD", FsTree.file [114])])] := by
  have h := (claim_C9_emptyDir
    [(".git", FsTree.dir [("HEAD", FsTree.file [114])]),
     ("src", FsTree.dir []),
     ("README.md", FsTree.file [104, 105])] ".git"
    (FsTree.dir [("HEAD", FsTree.file [114])])).1
  rw [h]
  rfl

/-- Claim C4, counterexample: the explicit cancel choice at the overwrite
decision ends the run with exit code 0, not the non-zero outcome the claim
requires — the `overwriteChecker` throw is caught inside `init`, which
prints the cancellation message and returns normally, so `init()` resolves
and the process exits cleanly. -/
theorem claim_C4_counterexample :
    initRun ⟨Except.ok [⟨"1.0.0", "@any-tools/demo"⟩],
        InitPromptResult.answered (some OverwriteChoice.no) ⟨"1.0.0", "@any-tools/demo"⟩,
        Except.ok ⟨"https://registry.example/demo.tgz"⟩,
        VarPromptResult.varAnswered []⟩ =
      ⟨0, true, false⟩ := by
  decide

/-- Claim C4 (amended): cancellation of the orchestrator's prompt chain —
including the explicit cancel choice at the overwrite decision — prints
the cancellation message but terminates with exit code 0; a fatal search
or fetch error rejects `init()`, the argument-less final `.catch()`
installs no handler, and the unhandled rejection terminates the process
with exit code 1 after the runtime prints the error; cancellation of the
per-template variable prompts exits with code 1 after printing a message;
successful completion prints the usage block and terminates with exit
code 0. -/
theorem claim_C4_amended (fw : PackageInfo) (fws : List PackageInfo)
    (d : PackageDetail) (loc : List (String × JSValue)) (e e2 : FetchError)
    (ow : Option OverwriteChoice)
    (how : ow ≠ some OverwriteChoice.no) :
    initRun ⟨Except.ok fws, InitPromptResult.cancelled, Except.ok d,
        VarPromptResult.varAnswered loc⟩ = ⟨0, true, false⟩ ∧
    initRun ⟨Except.ok fws, InitPromptResult.answered (some OverwriteChoice.no) fw,
        Except.ok d, VarPromptResult.varAnswered loc⟩ = ⟨0, true, false⟩ ∧
    initRun ⟨Except.error e2, InitPromptResult.answered ow fw, Except.ok d,
        VarPromptResult.varAnswered loc⟩ = ⟨1, true, false⟩ ∧
    initRun ⟨Except.ok fws, InitPromptResult.answered ow fw, Except.error e,
        VarPromptResult.varAnswered loc⟩ = ⟨1, true, false⟩ ∧
    initRun ⟨Except.ok fws, InitPromptResult.answered ow fw, Except.ok d,
        VarPromptResult.varCancelled⟩ = ⟨1, true, false⟩ ∧
    initRun ⟨Except.ok fws, InitPromptResult.answered ow fw, Except.ok d,
        VarPromptResult.varAnswered loc⟩ = ⟨0, false, true⟩ := by
  have hne : (ow == some OverwriteChoice.no) = false := by
    cases ow with
    | none => rfl
    | some c =>
      cases c with
      | yes => rfl
      | no => exact absurd rfl how
      | ignore => rfl
  refine ⟨rfl, rfl, rfl, ?_, ?_, ?_⟩
  all_goals simp [initRun, hne]

/-- Claim C4, witness: the amended theorem at a concrete framework,
detail, answer set and the ignore disposition. -/
theorem claim_C4_witness :
    initRun ⟨Except.ok [⟨"0.3.0", "@any-tools/web"⟩], InitPromptResult.cancelled,
        Except.ok ⟨"https://registry.example/web.tgz"⟩,
        VarPromptResult.varAnswered [("name", JSValue.str "web")]⟩ = ⟨0, true, false⟩ ∧
    initRun ⟨Except.ok [⟨"0.3.0", "@any-tools/web"⟩],
        InitPromptResult.answered (some OverwriteChoice.ignore) ⟨"0.3.0", "@any-tools/web"⟩,
        Except.ok ⟨"https://registry.example/web.tgz"⟩,
        VarPromptResult.varAnswered [("name", JSValue.str "web")]⟩ = ⟨0, false, true⟩ := by
  have h := claim_C4_amended ⟨"0.3.0", "@any-tools/web"⟩ [⟨"0.3.0", "@any-tools/web"⟩]
    ⟨"https://registry.example/web.tgz"⟩ [("name", JSValue.str "web")]
    (FetchError.transport "x") (FetchError.transport "y")
    (some OverwriteChoice.ignore) (by decide)
  exact ⟨h.1, h.2.2.2.2.2⟩
